import Mathlib

/-!
Shallow embedding of the access-control and reward-crediting core of the
personal-data-store repository, together with proofs about it.

Translated modules:
* audit.py   — `log_event` and the closed action/role enumerations
* access.py  — `can_access`, `assert_can_access`
* permissions.py — `_upsert_permission`, `grant_access`, `revoke_access`,
  `update_permission_details`, `set_trusted_orgs`, `request_access`,
  `approve_request`, `deny_request`
* storage.py — `_next_version`, `save_dataset`, `list_my_latest`,
  `change_visibility`
* rewards.py — `_has_credit_today`, `credit_reward`, `trigger_reward_on_access`

Modelling conventions:
* SQLite tables become lists of rows inside a `DB` record; `AUTOINCREMENT`
  for dataset ids becomes the `next_dataset_id` counter.
* `NOW()` timestamps are threaded in as a `now : Nat` parameter; the SQL
  `DATE(...)` calendar day used by the reward dedup is a `today : Nat`
  parameter (two rows carry the same `day` exactly when `DATE` would agree).
* Dates compared by Python string comparison (`expires_at < TODAY()`) are
  ISO `YYYY-MM-DD` strings; Python string order is code-point lexicographic,
  modelled as `List Char` order on `String.data`.
* Python exceptions become `Except PyError`; a `with get_conn()` transaction
  that raises rolls everything back, so a failing operation returns `.error`
  and no intermediate state.
* `json.dumps(meta)` payloads are kept as association lists (`LogMeta`);
  integer meta values are stored via `toString`.
-/

namespace PDS

/-- Python `str.strip()` (whitespace variants that occur in this code base). -/
def pystrip (s : String) : String :=
  ⟨(s.data.dropWhile (fun c => c == ' ' || c == '\t' || c == '\n' || c == '\r')).reverse.dropWhile
      (fun c => c == ' ' || c == '\t' || c == '\n' || c == '\r') |>.reverse⟩

/-- Python `str.lower()` (ASCII, which is all this code base uses). -/
def pylower (s : String) : String := ⟨s.data.map Char.toLower⟩

/-- Python `str.title()` for ASCII strings: first letter of every alphabetic
run upper-cased, the rest of the run lower-cased. -/
def pytitleAux : List Char → Bool → List Char
  | [], _ => []
  | c :: cs, prevAlpha =>
      (if c.isAlpha && !prevAlpha then c.toUpper
       else if c.isAlpha then c.toLower else c) :: pytitleAux cs c.isAlpha

/-- Python `str.title()`. -/
def pytitle (s : String) : String := ⟨pytitleAux s.data false⟩

/-- Python string comparison `a < b`: code-point lexicographic order. -/
def pyStrLt (a b : String) : Prop := a.data < b.data

instance (a b : String) : Decidable (pyStrLt a b) := by
  unfold pyStrLt; infer_instance

/-- Python `x or default` for an optional string argument: `None` and the
empty string both fall back to the default. -/
def orElseStr (s : Option String) (d : String) : String :=
  match s with
  | none => d
  | some t => if t = "" then d else t

/-- Insert into a sorted `List Nat` (ascending). -/
def insertSorted (x : Nat) : List Nat → List Nat
  | [] => [x]
  | y :: ys => if x ≤ y then x :: y :: ys else y :: insertSorted x ys

/-- Python `sorted(...)` on a list of ints (insertion sort). -/
def sortNat (l : List Nat) : List Nat := l.foldr insertSorted []

/-- Python exceptions raised by the translated code. -/
inductive PyError where
  | valueError (msg : String)
  | permissionError (msg : String)
  | fileNotFound (msg : String)
deriving DecidableEq, Repr

/-- Serialized audit/reward metadata: association list standing in for the
`json.dumps` payload; values are optional strings (`None` ↦ `none`). -/
abbrev LogMeta : Type := List (String × Option String)

/-- A row of the `users` table (the columns the core reads:
`SELECT id, role, verified, name FROM users`). -/
structure User where
  id : Nat
  role : String
  verified : Nat
  name : String
deriving DecidableEq, Repr

/-- A row of the `datasets` table. `content_enc` is the encrypted blob. -/
structure Dataset where
  id : Nat
  owner_id : Nat
  name : String
  description : String
  mime : String
  content_enc : List Nat
  visibility : String
  version : Nat
  created_at : Nat
  updated_at : Option Nat
deriving DecidableEq, Repr

/-- A row of the `permissions` table (unique per (dataset_id, org_id)). -/
structure PermRow where
  dataset_id : Nat
  org_id : Nat
  allow : Nat
  status : String
  scope : Option String
  expires_at : Option String
  created_at : Nat
  updated_at : Option Nat
deriving DecidableEq, Repr

/-- A row of the append-only `access_logs` table. -/
structure AuditEntry where
  dataset_id : Nat
  actor_id : Nat
  actor_role : String
  action : String
  meta : LogMeta
  at_ts : Nat
deriving DecidableEq, Repr

/-- A row of the `rewards` table.  The repository tolerates two concrete
schemas (db_init.py uses `amount_cents`/`created_at`, the migration uses
`amount`/`unit`/`meta`/`at`); both carry the columns modelled here, with the
date column modelled as the calendar `day` that SQL `DATE(...)` extracts. -/
structure RewardRow where
  dataset_id : Nat
  org_id : Nat
  owner_id : Nat
  amount : Nat
  unit : String
  reason : String
  meta : LogMeta
  day : Nat
deriving DecidableEq, Repr

/-- The SQLite database state. -/
structure DB where
  users : List User
  datasets : List Dataset
  permissions : List PermRow
  access_logs : List AuditEntry
  rewards : List RewardRow
  next_dataset_id : Nat
deriving DecidableEq, Repr

/-! ## audit.py -/

/-- `ALLOWED_ACTIONS` from audit.py (also the CHECK constraint of
`access_logs` in db_init.py). -/
def ALLOWED_ACTIONS : List String :=
  ["upload", "permissions_update", "request_access", "grant", "revoke",
   "view_meta", "download", "denied", "login_failed", "login_succeeded",
   "reward_credited"]

/-- `ALLOWED_ROLES` from audit.py. -/
def ALLOWED_ROLES : List String := ["user", "org", "admin"]

/-- `audit.log_event`: validates action and role against the closed
enumerations, raising `ValueError` without writing on an invalid value,
otherwise appending one row to `access_logs`. -/
def log_event (db : DB) (dataset_id actor_id : Nat) (actor_role action : String)
    (meta : LogMeta) (now : Nat) : Except PyError DB :=
  let action := pystrip action
  if ALLOWED_ACTIONS.contains action = false then
    .error (.valueError ("Invalid action: " ++ action))
  else
    let role := pystrip actor_role
    if ALLOWED_ROLES.contains role = false then
      .error (.valueError ("Invalid actor_role: " ++ role))
    else
      .ok { db with access_logs :=
              db.access_logs ++ [⟨dataset_id, actor_id, role, action, meta, now⟩] }

/-! ## access.py -/

/-- `_fetch_dataset`: `SELECT ... FROM datasets WHERE id=?`. -/
def fetch_dataset (db : DB) (dataset_id : Nat) : Option Dataset :=
  db.datasets.find? (fun d => d.id == dataset_id)

/-- `_fetch_user`: `SELECT id, role, verified, name FROM users WHERE id=?`. -/
def fetch_user (db : DB) (user_id : Nat) : Option User :=
  db.users.find? (fun u => u.id == user_id)

/-- `_fetch_grant`: the permissions row for (dataset_id, org_id). -/
def fetch_grant (db : DB) (dataset_id org_id : Nat) : Option PermRow :=
  db.permissions.find? (fun p => p.dataset_id == dataset_id && p.org_id == org_id)

/-- The `grant_info` dictionary returned by `can_access` when non-empty. -/
structure Grant where
  mode : String
  scope : Option String
  expires_at : Option String
deriving DecidableEq, Repr

/-- Result triple of `can_access`: `(allowed, reason, grant_info)`; the empty
dictionary is `none`. -/
structure Decision where
  allowed : Bool
  reason : String
  grant : Option Grant
deriving DecidableEq, Repr

/-- `access.can_access(dataset_id, actor_id, actor_role)`, with the policy
clock `TODAY()` passed in as the ISO date string `today`.  Mirrors the source
control flow: dataset fetch, owner/admin override (with the unknown-user
early return), then the visibility ladder.  `not actor_id` in the Trusted
branch is Python truthiness, so actor id 0 also falls into `trusted_only`. -/
def can_access (db : DB) (today : String) (dataset_id : Nat)
    (actor_id : Option Nat) (actor_role : Option String) : Decision :=
  match fetch_dataset db dataset_id with
  | none => ⟨false, "not_found", none⟩
  | some ds =>
      let visibilityLadder : Decision :=
        if ds.visibility = "Public" then ⟨true, "ok", some ⟨"public", none, none⟩⟩
        else if ds.visibility = "Private" then ⟨false, "private", none⟩
        else if ds.visibility = "Trusted" then
          match actor_id with
          | none => ⟨false, "trusted_only", none⟩
          | some a =>
              if a = 0 ∨ actor_role ≠ some "org" then ⟨false, "trusted_only", none⟩
              else
                match fetch_user db a with
                | none => ⟨false, "unverified_org", none⟩
                | some u =>
                    if u.verified ≠ 1 then ⟨false, "unverified_org", none⟩
                    else
                      match fetch_grant db dataset_id a with
                      | none => ⟨false, "not_trusted", none⟩
                      | some g =>
                          if g.allow = 0 ∨ g.status ≠ "granted" then
                            ⟨false, "not_trusted", none⟩
                          else
                            match g.expires_at with
                            | none => ⟨true, "ok", some ⟨"trusted", g.scope, none⟩⟩
                            | some e =>
                                if e ≠ "" ∧ pyStrLt e today then
                                  ⟨false, "expired", some ⟨"trusted", g.scope, some e⟩⟩
                                else
                                  ⟨true, "ok", some ⟨"trusted", g.scope, some e⟩⟩
        else ⟨false, "forbidden", none⟩
      match actor_id with
      | none => visibilityLadder
      | some a =>
          match fetch_user db a with
          | none => ⟨false, "forbidden", none⟩
          | some u =>
              if a = ds.owner_id then ⟨true, "ok", some ⟨"owner", none, none⟩⟩
              else if u.role = "admin" then ⟨true, "ok", some ⟨"admin", none, none⟩⟩
              else visibilityLadder

/-- Metadata written by `assert_can_access`:
`{"reason": reason, "purpose": purpose, **grant}`. -/
def accessMeta (d : Decision) (purpose : Option String) : LogMeta :=
  [("reason", some d.reason), ("purpose", purpose)] ++
    (match d.grant with
     | none => []
     | some g => [("mode", some g.mode), ("scope", g.scope), ("expires_at", g.expires_at)])

/-- `access.assert_can_access(..., log=True/False)`: runs `can_access`, when
`log` is set calls `log_event` with action `data_access_allowed` or
`data_access_denied` (and `actor_id or 0`, `actor_role or "-"`), then raises
`PermissionError` on denial, returning the grant info on success. -/
def assert_can_access (db : DB) (today : String) (dataset_id : Nat)
    (actor_id : Option Nat) (actor_role : Option String) (purpose : Option String)
    (log : Bool) (now : Nat) : Except PyError (Option Grant × DB) := do
  let d := can_access db today dataset_id actor_id actor_role
  let db ←
    if log then
      log_event db dataset_id (actor_id.getD 0) (orElseStr actor_role "-")
        (if d.allowed then "data_access_allowed" else "data_access_denied")
        (accessMeta d purpose) now
    else .ok db
  if d.allowed = false then
    .error (.permissionError ("Access denied: " ++ d.reason))
  else
    .ok (d.grant, db)

/-! ## permissions.py -/

/-- `_sanitize_scope`: strip, then empty becomes `None`. -/
def sanitize_scope (scope : Option String) : Option String :=
  let s := pystrip (scope.getD "")
  if s = "" then none else some s

/-- Does a permissions row for (dataset_id, org_id) exist (the unique
constraint consulted by `INSERT OR IGNORE`)? -/
def hasPermKey (ps : List PermRow) (dataset_id org_id : Nat) : Bool :=
  ps.any (fun r => r.dataset_id == dataset_id && r.org_id == org_id)

/-- `_upsert_permission`: `INSERT OR IGNORE` of a fresh row (a no-op when the
(dataset_id, org_id) row exists) followed by an unconditional `UPDATE` of
allow, status, scope, expires_at, updated_at on that key. -/
def upsert_permission (ps : List PermRow) (dataset_id org_id : Nat)
    (allow : Nat) (status : String) (scope expires_at : Option String)
    (now : Nat) : List PermRow :=
  let inserted :=
    if hasPermKey ps dataset_id org_id then ps
    else ps ++ [⟨dataset_id, org_id, allow, status, scope, expires_at, now, none⟩]
  inserted.map (fun r =>
    if r.dataset_id == dataset_id && r.org_id == org_id then
      { r with allow := allow, status := status, scope := scope,
               expires_at := expires_at, updated_at := some now }
    else r)

/-- `permissions.grant_access`: one upsert to (allow=1, status=granted) plus
the `grant` and `permissions_update` audit writes, in one transaction. -/
def grant_access (db : DB) (dataset_id owner_id org_id : Nat)
    (scope expires_at : Option String) (now : Nat) : Except PyError DB := do
  let scope := sanitize_scope scope
  let ps := upsert_permission db.permissions dataset_id org_id 1 "granted" scope expires_at now
      let db := { db with permissions := ps }
  let db ← log_event db dataset_id owner_id "user" "grant"
    [("org_id", some (toString org_id)), ("scope", scope), ("expires_at", expires_at)] now
  let db ← log_event db dataset_id owner_id "user" "permissions_update"
    [("op", some "grant"), ("org_id", some (toString org_id))] now
  pure db

/-- `permissions.revoke_access`: one upsert to (allow=0, status=revoked) plus
the `revoke` and `permissions_update` audit writes. -/
def revoke_access (db : DB) (dataset_id owner_id org_id : Nat)
    (now : Nat) : Except PyError DB := do
  let ps := upsert_permission db.permissions dataset_id org_id 0 "revoked" none none now
      let db := { db with permissions := ps }
  let db ← log_event db dataset_id owner_id "user" "revoke"
    [("org_id", some (toString org_id))] now
  let db ← log_event db dataset_id owner_id "user" "permissions_update"
    [("op", some "revoke"), ("org_id", some (toString org_id))] now
  pure db

/-- `permissions.update_permission_details`: upsert keeping
(allow=1, status=granted) with new scope/expiry, plus one
`permissions_update` audit write. -/
def update_permission_details (db : DB) (dataset_id owner_id org_id : Nat)
    (scope expires_at : Option String) (now : Nat) : Except PyError DB := do
  let scope := sanitize_scope scope
  let ps := upsert_permission db.permissions dataset_id org_id 1 "granted" scope expires_at now
      let db := { db with permissions := ps }
  let db ← log_event db dataset_id owner_id "user" "permissions_update"
    [("op", some "update_details"), ("org_id", some (toString org_id)),
     ("scope", scope), ("expires_at", expires_at)] now
  pure db

/-- The `SELECT org_id FROM permissions WHERE dataset_id=? AND allow=1 AND
status='granted'` query feeding the Python `set(...)` in `set_trusted_orgs`
(dedup models the set constructor). -/
def currentGrantedOrgs (ps : List PermRow) (dataset_id : Nat) : List Nat :=
  ((ps.filter (fun r => r.dataset_id == dataset_id && r.allow == 1 &&
      r.status == "granted")).map (fun r => r.org_id)).dedup

/-- The `for org_id in added:` loop body of `set_trusted_orgs`: upsert to
granted plus `grant` and `permissions_update` audit writes, for each org in
turn. -/
def apply_grants (dataset_id owner_id : Nat) (scope expires_at : Option String)
    (now : Nat) : DB → List Nat → Except PyError DB
  | db, [] => .ok db
  | db, org_id :: rest => do
      let ps := upsert_permission db.permissions dataset_id org_id 1 "granted" scope expires_at now
      let db := { db with permissions := ps }
      let db ← log_event db dataset_id owner_id "user" "grant"
        [("org_id", some (toString org_id)), ("scope", scope), ("expires_at", expires_at)] now
      let db ← log_event db dataset_id owner_id "user" "permissions_update"
        [("op", some "grant"), ("org_id", some (toString org_id))] now
      apply_grants dataset_id owner_id scope expires_at now db rest

/-- The `for org_id in removed:` loop body of `set_trusted_orgs`: upsert to
revoked plus `revoke` and `permissions_update` audit writes. -/
def apply_revokes (dataset_id owner_id : Nat) (now : Nat) :
    DB → List Nat → Except PyError DB
  | db, [] => .ok db
  | db, org_id :: rest => do
      let ps := upsert_permission db.permissions dataset_id org_id 0 "revoked" none none now
      let db := { db with permissions := ps }
      let db ← log_event db dataset_id owner_id "user" "revoke"
        [("org_id", some (toString org_id))] now
      let db ← log_event db dataset_id owner_id "user" "permissions_update"
        [("op", some "revoke"), ("org_id", some (toString org_id))] now
      apply_revokes dataset_id owner_id now db rest

/-- `permissions.set_trusted_orgs`: diff the currently granted org set
against the desired set, grant the additions and revoke the removals in one
transaction, and return the sorted added/removed id lists with the final
state. -/
def set_trusted_orgs (db : DB) (dataset_id owner_id : Nat)
    (new_org_ids : List Nat) (default_scope default_expires_at : Option String)
    (now : Nat) : Except PyError (List Nat × List Nat × DB) := do
  let default_scope := sanitize_scope default_scope
  let current := currentGrantedOrgs db.permissions dataset_id
  let desired := new_org_ids.dedup
  let added := sortNat (desired.filter (fun o => current.contains o = false))
  let removed := sortNat (current.filter (fun o => desired.contains o = false))
  let db ← apply_grants dataset_id owner_id default_scope default_expires_at now db added
  let db ← apply_revokes dataset_id owner_id now db removed
  pure (added, removed, db)

/-- `permissions.request_access`: upsert to (allow=0, status=pending) and a
single `request_access` audit write carrying the stripped message. -/
def request_access (db : DB) (dataset_id org_id : Nat) (message : Option String)
    (now : Nat) : Except PyError DB := do
  let msg := pystrip (message.getD "")
  let ps := upsert_permission db.permissions dataset_id org_id 0 "pending" none none now
      let db := { db with permissions := ps }
  let db ← log_event db dataset_id org_id "org" "request_access"
    [("message", some msg)] now
  pure db

/-- `permissions.approve_request`: upsert to (allow=1, status=granted) plus
the `grant` and `permissions_update` audit writes. -/
def approve_request (db : DB) (dataset_id owner_id org_id : Nat)
    (scope expires_at : Option String) (now : Nat) : Except PyError DB := do
  let scope := sanitize_scope scope
  let ps := upsert_permission db.permissions dataset_id org_id 1 "granted" scope expires_at now
      let db := { db with permissions := ps }
  let db ← log_event db dataset_id owner_id "user" "grant"
    [("org_id", some (toString org_id)), ("scope", scope), ("expires_at", expires_at)] now
  let db ← log_event db dataset_id owner_id "user" "permissions_update"
    [("op", some "approve_request"), ("org_id", some (toString org_id))] now
  pure db

/-- `permissions.deny_request`: upsert to (allow=0, status=revoked) plus the
`denied` and `permissions_update` audit writes. -/
def deny_request (db : DB) (dataset_id owner_id org_id : Nat)
    (reason : Option String) (now : Nat) : Except PyError DB := do
  let reason := pystrip (reason.getD "")
  let ps := upsert_permission db.permissions dataset_id org_id 0 "revoked" none none now
      let db := { db with permissions := ps }
  let db ← log_event db dataset_id owner_id "user" "denied"
    [("org_id", some (toString org_id)), ("reason", some reason)] now
  let db ← log_event db dataset_id owner_id "user" "permissions_update"
    [("op", some "deny_request"), ("org_id", some (toString org_id))] now
  pure db

/-! ## storage.py -/

/-- `ALLOWED_VIS` from storage.py (written as a Python set; list order is
irrelevant to the membership tests performed on it). -/
def ALLOWED_VIS : List String := ["Private", "Trusted", "Public"]

/-- storage.py `DEFAULT_MIME`. -/
def DEFAULT_MIME : String := "application/octet-stream"

/-- Modelled from the spec: `filesec.encrypt_bytes` is outside the specified
core, which treats encryption as an opaque encrypt/decrypt byte transform;
it is modelled as the identity transform on byte lists, which no claim
inspects. -/
def encrypt_bytes (raw : List Nat) : List Nat := raw

/-- `storage._next_version`: `COALESCE(MAX(version), 0) + 1` over the rows of
(owner_id, name). -/
def next_version (ds : List Dataset) (owner_id : Nat) (name : String) : Nat :=
  ((ds.filter (fun d => d.owner_id == owner_id && d.name == name)).foldl
    (fun m d => max m d.version) 0) + 1

/-- `storage.save_dataset`: validates the file name and visibility, encrypts
the payload, inserts a new dataset row at the next version for
(owner_id, file_name), and logs `upload`; returns (dataset_id, version). -/
def save_dataset (db : DB) (owner_id : Nat) (file_name : String)
    (mime : Option String) (raw_bytes : List Nat) (description : Option String)
    (visibility : String) (now : Nat) : Except PyError (Nat × Nat × DB) := do
  if file_name = "" then
    .error (.valueError "file_name is required")
  else
    let vis := pytitle (pystrip (if visibility = "" then "Private" else visibility))
    if ALLOWED_VIS.contains vis = false then
      .error (.valueError ("Invalid visibility: " ++ visibility))
    else
      let m0 := pystrip (orElseStr mime DEFAULT_MIME)
      let m := if m0 = "" then DEFAULT_MIME else m0
      let desc := pystrip (description.getD "")
      let ciphertext := encrypt_bytes raw_bytes
      let ver := next_version db.datasets owner_id file_name
      let ds_id := db.next_dataset_id
      let db := { db with
        datasets := db.datasets ++
          [⟨ds_id, owner_id, file_name, desc, m, ciphertext, vis, ver, now, none⟩],
        next_dataset_id := db.next_dataset_id + 1 }
      let db ← log_event db ds_id owner_id "user" "upload"
        [("name", some file_name), ("mime", some m),
         ("size", some (toString raw_bytes.length)),
         ("version", some (toString ver)), ("visibility", some vis)] now
      pure (ds_id, ver, db)

/-- Output order of `list_my_latest`: `ORDER BY created_at DESC, id DESC`. -/
def dsBefore (a b : Dataset) : Bool :=
  b.created_at < a.created_at || (a.created_at == b.created_at && b.id ≤ a.id)

/-- Insertion step for the `ORDER BY` sort of `list_my_latest`. -/
def insertDs (x : Dataset) : List Dataset → List Dataset
  | [] => [x]
  | y :: ys => if dsBefore x y then x :: y :: ys else y :: insertDs x ys

/-- The `ORDER BY created_at DESC, id DESC` sort of `list_my_latest`. -/
def sortDs (l : List Dataset) : List Dataset := l.foldr insertDs []

/-- SQL `MAX(version)` over the rows of (owner_id, name), the correlated
subquery of `list_my_latest` (0 when there is no such row, which cannot
happen for the outer rows since each is itself such a row). -/
def maxVersionFor (ds : List Dataset) (owner_id : Nat) (name : String) : Nat :=
  (ds.filter (fun d => d.owner_id == owner_id && d.name == name)).foldl
    (fun m d => max m d.version) 0

/-- `storage.list_my_latest`: the owner rows whose version equals the
maximum version for their (owner, name), ordered by created_at then id
descending, limited to `limit` rows. -/
def list_my_latest (db : DB) (owner_id : Nat) (limit : Nat) : List Dataset :=
  (sortDs (db.datasets.filter (fun d =>
    d.owner_id == owner_id &&
    d.version == maxVersionFor db.datasets d.owner_id d.name))).take limit

/-- `storage.change_visibility`: validates the visibility string, returns
`false` when the dataset is missing or the caller is not the owner, `true`
without any write when the value is unchanged, and otherwise updates the
dataset row in place and logs one `permissions_update` with old and new. -/
def change_visibility (db : DB) (owner_id dataset_id : Nat)
    (new_visibility : String) (now : Nat) : Except PyError (Bool × DB) := do
  let vis := pytitle (pystrip new_visibility)
  if ALLOWED_VIS.contains vis = false then
    .error (.valueError ("Invalid visibility: " ++ new_visibility))
  else
    match fetch_dataset db dataset_id with
    | none => .ok (false, db)
    | some ds =>
        if ds.owner_id ≠ owner_id then .ok (false, db)
        else if ds.visibility = vis then .ok (true, db)
        else
          let db := { db with datasets := db.datasets.map (fun d =>
            if d.id == dataset_id then { d with visibility := vis, updated_at := some now }
            else d) }
          let db ← log_event db dataset_id owner_id "user" "permissions_update"
            [("op", some "set_visibility"), ("old", some ds.visibility),
             ("new", some vis)] now
          pure (true, db)

/-! ## rewards.py -/

/-- `rewards._owner_id_for_dataset`: owner lookup, `FileNotFoundError` when
the dataset does not exist. -/
def owner_id_for_dataset (db : DB) (dataset_id : Nat) : Except PyError Nat :=
  match fetch_dataset db dataset_id with
  | none => .error (.fileNotFound "Dataset not found")
  | some ds => .ok ds.owner_id

/-- `rewards._has_credit_today`: is there a reward row for
(dataset_id, org_id) whose date column falls on the current calendar day?
Both schemas shipped by the repository (db_init.py and the migration) carry a
date column (`created_at` resp. `at`), so the no-date-column fallback branch
of the source is unreachable for them and is not modelled. -/
def has_credit_today (db : DB) (today dataset_id org_id : Nat) : Bool :=
  db.rewards.any (fun r =>
    r.dataset_id == dataset_id && r.org_id == org_id && r.day == today)

/-- `rewards._insert_reward` / `credit_reward`: append one reward row (the
columns common to both schemas) and mirror a `reward_credited` entry into
the audit log attributed to the owner with role `admin`. -/
def credit_reward (db : DB) (dataset_id owner_id org_id amount : Nat)
    (unit reason : String) (meta : LogMeta) (today now : Nat) :
    Except PyError DB := do
  let db := { db with rewards := db.rewards ++
    [⟨dataset_id, org_id, owner_id, amount, unit, reason, meta, today⟩] }
  let db ← log_event db dataset_id owner_id "admin" "reward_credited"
    ([("org_id", some (toString org_id)), ("amount", some (toString amount)),
      ("unit", some unit), ("reason", some reason)] ++ meta) now
  pure db

/-- `rewards.trigger_reward_on_access`: reward only org actors in mode
`trusted` or `public`, at most once per (dataset, org) per calendar day;
otherwise insert one unit credit for the dataset owner. `not actor_id` is
Python truthiness (None or 0). -/
def trigger_reward_on_access (db : DB) (dataset_id : Nat)
    (actor_id : Option Nat) (actor_role : Option String) (grant : Option Grant)
    (purpose : Option String) (today now : Nat) : Except PyError DB := do
  if actor_id.getD 0 = 0 ∨ pylower (actor_role.getD "") ≠ "org" then
    .ok db
  else
    let mode := (grant.map Grant.mode).getD ""
    if ¬ (mode = "trusted" ∨ mode = "public") then
      .ok db
    else if has_credit_today db today dataset_id (actor_id.getD 0) then
      .ok db
    else do
      let owner_id ← owner_id_for_dataset db dataset_id
      credit_reward db dataset_id owner_id (actor_id.getD 0) 1 "credit"
        ("org_access:" ++ mode)
        [("purpose", some (orElseStr purpose "download")), ("mode", some mode)]
        today now

/-! ## Derived forms and basic lemmas -/

/-- State with the permissions table replaced. -/
def setPerms (db : DB) (ps : List PermRow) : DB := { db with permissions := ps }

/-- State with one audit row appended. -/
def addLog (db : DB) (e : AuditEntry) : DB :=
  { db with access_logs := db.access_logs ++ [e] }

/-- The `grant` audit row written by grant/approve operations. -/
def grantLogEntry (d w o : Nat) (sc ex : Option String) (now : Nat) : AuditEntry :=
  ⟨d, w, "user", "grant",
   [("org_id", some (toString o)), ("scope", sc), ("expires_at", ex)], now⟩

/-- The generic `permissions_update` audit row, tagged with the operation. -/
def puLogEntry (d w : Nat) (op : String) (o : Nat) (now : Nat) : AuditEntry :=
  ⟨d, w, "user", "permissions_update",
   [("op", some op), ("org_id", some (toString o))], now⟩

/-- The `revoke` audit row. -/
def revokeLogEntry (d w o : Nat) (now : Nat) : AuditEntry :=
  ⟨d, w, "user", "revoke", [("org_id", some (toString o))], now⟩

/-- The `request_access` audit row. -/
def requestLogEntry (d o : Nat) (msg : String) (now : Nat) : AuditEntry :=
  ⟨d, o, "org", "request_access", [("message", some msg)], now⟩

/-- The `denied` audit row written by `deny_request`. -/
def deniedLogEntry (d w o : Nat) (reason : String) (now : Nat) : AuditEntry :=
  ⟨d, w, "user", "denied",
   [("org_id", some (toString o)), ("reason", some reason)], now⟩

theorem grant_access_eq (db : DB) (d w o : Nat) (sc ex : Option String) (now : Nat) :
    grant_access db d w o sc ex now = .ok
      (addLog (addLog
        (setPerms db (upsert_permission db.permissions d o 1 "granted" (sanitize_scope sc) ex now))
        (grantLogEntry d w o (sanitize_scope sc) ex now))
        (puLogEntry d w "grant" o now)) := rfl

theorem revoke_access_eq (db : DB) (d w o : Nat) (now : Nat) :
    revoke_access db d w o now = .ok
      (addLog (addLog
        (setPerms db (upsert_permission db.permissions d o 0 "revoked" none none now))
        (revokeLogEntry d w o now))
        (puLogEntry d w "revoke" o now)) := rfl

theorem update_permission_details_eq (db : DB) (d w o : Nat) (sc ex : Option String)
    (now : Nat) :
    update_permission_details db d w o sc ex now = .ok
      (addLog
        (setPerms db (upsert_permission db.permissions d o 1 "granted" (sanitize_scope sc) ex now))
        ⟨d, w, "user", "permissions_update",
         [("op", some "update_details"), ("org_id", some (toString o)),
          ("scope", sanitize_scope sc), ("expires_at", ex)], now⟩) := rfl

theorem request_access_eq (db : DB) (d o : Nat) (message : Option String) (now : Nat) :
    request_access db d o message now = .ok
      (addLog
        (setPerms db (upsert_permission db.permissions d o 0 "pending" none none now))
        (requestLogEntry d o (pystrip (message.getD "")) now)) := rfl

theorem approve_request_eq (db : DB) (d w o : Nat) (sc ex : Option String) (now : Nat) :
    approve_request db d w o sc ex now = .ok
      (addLog (addLog
        (setPerms db (upsert_permission db.permissions d o 1 "granted" (sanitize_scope sc) ex now))
        (grantLogEntry d w o (sanitize_scope sc) ex now))
        (puLogEntry d w "approve_request" o now)) := rfl

theorem deny_request_eq (db : DB) (d w o : Nat) (reason : Option String) (now : Nat) :
    deny_request db d w o reason now = .ok
      (addLog (addLog
        (setPerms db (upsert_permission db.permissions d o 0 "revoked" none none now))
        (deniedLogEntry d w o (pystrip (reason.getD "")) now))
        (puLogEntry d w "deny_request" o now)) := rfl

/-! ### Membership lemmas for `upsert_permission` -/

/-- A row of the upserted table is either an untouched non-key row of the old
table, or it carries the key and exactly the written values. -/
theorem mem_upsert {ps : List PermRow} {d o a : Nat} {st : String}
    {sc ex : Option String} {now : Nat} {r : PermRow}
    (h : r ∈ upsert_permission ps d o a st sc ex now) :
    (r ∈ ps ∧ ¬(r.dataset_id = d ∧ r.org_id = o)) ∨
      (r.dataset_id = d ∧ r.org_id = o ∧ r.allow = a ∧ r.status = st ∧
       r.scope = sc ∧ r.expires_at = ex) := by
  unfold upsert_permission at h
  rw [List.mem_map] at h
  obtain ⟨q, hq, hr⟩ := h
  by_cases hkey : q.dataset_id = d ∧ q.org_id = o
  · right
    have hb : (q.dataset_id == d && q.org_id == o) = true := by
      simp [Bool.and_eq_true, beq_iff_eq, hkey.1, hkey.2]
    simp only [hb, if_true] at hr
    subst hr
    simp [hkey.1, hkey.2]
  · left
    have hb : (q.dataset_id == d && q.org_id == o) = false := by
      rw [← Bool.not_eq_true]
      intro hcontra
      exact hkey (by simpa [Bool.and_eq_true, beq_iff_eq] using hcontra)
    simp only [hb, Bool.false_eq_true, if_false] at hr
    subst hr
    refine ⟨?_, hkey⟩
    by_cases hk : hasPermKey ps d o
    · simpa [hk] using hq
    · simp only [hk, if_false, Bool.false_eq_true, List.mem_append] at hq
      rcases hq with hq | hq
      · exact hq
      · exfalso
        apply hkey
        simp only [List.mem_singleton] at hq
        subst hq
        exact ⟨rfl, rfl⟩

/-- A non-key row of the old table survives the upsert untouched. -/
theorem mem_upsert_frame {ps : List PermRow} {d o a : Nat} {st : String}
    {sc ex : Option String} {now : Nat} {r : PermRow}
    (hne : ¬(r.dataset_id = d ∧ r.org_id = o)) (h : r ∈ ps) :
    r ∈ upsert_permission ps d o a st sc ex now := by
  unfold upsert_permission
  rw [List.mem_map]
  refine ⟨r, ?_, ?_⟩
  · by_cases hk : hasPermKey ps d o
    · simpa [hk] using h
    · simp only [hk, if_false, Bool.false_eq_true, List.mem_append]
      exact Or.inl h
  · have hb : (r.dataset_id == d && r.org_id == o) = false := by
      rw [← Bool.not_eq_true]
      intro hcontra
      exact hne (by simpa [Bool.and_eq_true, beq_iff_eq] using hcontra)
    simp [hb]

/-- After an upsert, a row with the key exists and carries the written
values. -/
theorem upsert_exists_key (ps : List PermRow) (d o a : Nat) (st : String)
    (sc ex : Option String) (now : Nat) :
    ∃ r ∈ upsert_permission ps d o a st sc ex now,
      r.dataset_id = d ∧ r.org_id = o ∧ r.allow = a ∧ r.status = st ∧
      r.scope = sc ∧ r.expires_at = ex := by
  unfold upsert_permission
  by_cases hk : hasPermKey ps d o
  · have hany : ∃ q ∈ ps, (q.dataset_id == d && q.org_id == o) = true := by
      have := hk
      unfold hasPermKey at this
      rwa [List.any_eq_true] at this
    obtain ⟨q, hq, hqk⟩ := hany
    have hkey : q.dataset_id = d ∧ q.org_id = o := by
      simpa [Bool.and_eq_true, beq_iff_eq] using hqk
    refine ⟨{ q with allow := a, status := st, scope := sc, expires_at := ex, updated_at := some now }, ?_, ?_⟩
    · rw [List.mem_map]
      refine ⟨q, by simpa [hk] using hq, ?_⟩
      simp [hqk]
    · simp [hkey.1, hkey.2]
  · refine ⟨⟨d, o, a, st, sc, ex, now, some now⟩, ?_, by simp⟩
    rw [List.mem_map]
    refine ⟨⟨d, o, a, st, sc, ex, now, none⟩, ?_, ?_⟩
    · simp [hk]
    · simp

/-! ### List and fold helper lemmas -/

theorem mem_insertSorted {x y : Nat} {l : List Nat} :
    y ∈ insertSorted x l ↔ y = x ∨ y ∈ l := by
  induction l with
  | nil => simp [insertSorted]
  | cons z zs ih =>
      unfold insertSorted
      by_cases h : x ≤ z
      · rw [if_pos h]
        simp [List.mem_cons]
      · rw [if_neg h]
        simp only [List.mem_cons, ih]
        tauto

theorem mem_sortNat {x : Nat} {l : List Nat} : x ∈ sortNat l ↔ x ∈ l := by
  unfold sortNat
  induction l with
  | nil => simp
  | cons z zs ih =>
      simp only [List.foldr_cons, mem_insertSorted, List.mem_cons, ih]

theorem mem_insertDs {x y : Dataset} {l : List Dataset} :
    y ∈ insertDs x l ↔ y = x ∨ y ∈ l := by
  induction l with
  | nil => simp [insertDs]
  | cons z zs ih =>
      unfold insertDs
      by_cases h : dsBefore x z = true
      · rw [if_pos h]
        simp [List.mem_cons]
      · rw [if_neg h]
        simp only [List.mem_cons, ih]
        tauto

theorem mem_sortDs {x : Dataset} {l : List Dataset} : x ∈ sortDs l ↔ x ∈ l := by
  unfold sortDs
  induction l with
  | nil => simp
  | cons z zs ih =>
      simp only [List.foldr_cons, mem_insertDs, List.mem_cons, ih]

theorem foldl_max_acc_le (l : List Dataset) (acc : Nat) :
    acc ≤ l.foldl (fun m d => max m d.version) acc := by
  induction l generalizing acc with
  | nil => exact Nat.le_refl acc
  | cons y ys ih =>
      exact Nat.le_trans (Nat.le_max_left acc y.version) (ih (max acc y.version))

theorem le_foldl_max {l : List Dataset} {x : Dataset} (acc : Nat) (h : x ∈ l) :
    x.version ≤ l.foldl (fun m d => max m d.version) acc := by
  induction l generalizing acc with
  | nil => cases h
  | cons y ys ih =>
      rcases List.mem_cons.mp h with h | h
      · subst h
        exact Nat.le_trans (Nat.le_max_right acc x.version)
          (foldl_max_acc_le ys (max acc x.version))
      · exact ih _ h

/-- An active grant for (dataset, org) exists in the permissions table:
a row with allow=1 and status granted. -/
def grantedIn (ps : List PermRow) (d o : Nat) : Prop :=
  ∃ r ∈ ps, r.dataset_id = d ∧ r.org_id = o ∧ r.allow = 1 ∧ r.status = "granted"

instance (ps : List PermRow) (d o : Nat) : Decidable (grantedIn ps d o) := by
  unfold grantedIn; infer_instance

theorem mem_currentGrantedOrgs {ps : List PermRow} {d o : Nat} :
    o ∈ currentGrantedOrgs ps d ↔ grantedIn ps d o := by
  unfold currentGrantedOrgs grantedIn
  rw [List.mem_dedup, List.mem_map]
  constructor
  · rintro ⟨r, hr, rfl⟩
    rw [List.mem_filter] at hr
    obtain ⟨hmem, hcond⟩ := hr
    have hc : (r.dataset_id = d ∧ r.allow = 1) ∧ r.status = "granted" := by
      simpa [Bool.and_eq_true, beq_iff_eq] using hcond
    exact ⟨r, hmem, hc.1.1, rfl, hc.1.2, hc.2⟩
  · rintro ⟨r, hmem, h1, h2, h3, h4⟩
    refine ⟨r, ?_, h2⟩
    rw [List.mem_filter]
    exact ⟨hmem, by simp [Bool.and_eq_true, beq_iff_eq, h1, h3, h4]⟩

/-- `log_event` with a valid (post-strip) action and role appends exactly
one audit row. -/
theorem log_event_ok_lit (db : DB) (i a : Nat) (role act : String) (m : LogMeta)
    (now : Nat) (hact : ALLOWED_ACTIONS.contains (pystrip act) = true)
    (hrole : ALLOWED_ROLES.contains (pystrip role) = true) :
    log_event db i a role act m now =
      .ok (addLog db ⟨i, a, pystrip role, pystrip act, m, now⟩) := by
  have h1 : pystrip act ∈ ALLOWED_ACTIONS := by simpa using hact
  have h2 : pystrip role ∈ ALLOWED_ROLES := by simpa using hrole
  simp [log_event, h1, h2, addLog]

/-- The §3 invariant on a permission row: status and allow move together. -/
def statusAllowCoherent (r : PermRow) : Prop :=
  (r.status = "granted" → r.allow = 1) ∧ (r.status = "revoked" → r.allow = 0) ∧
  (r.status = "pending" → r.allow = 0)

instance (r : PermRow) : Decidable (statusAllowCoherent r) := by
  unfold statusAllowCoherent; infer_instance

/-- An upsert writing a coherent (allow, status) pair preserves coherence of
the whole table. -/
theorem upsert_preserves_coherent {ps : List PermRow} {d o a : Nat} {st : String}
    {sc ex : Option String} {now : Nat}
    (hpair : (st = "granted" → a = 1) ∧ (st = "revoked" → a = 0) ∧ (st = "pending" → a = 0))
    (hps : ∀ r ∈ ps, statusAllowCoherent r) :
    ∀ r ∈ upsert_permission ps d o a st sc ex now, statusAllowCoherent r := by
  intro r hr
  rcases mem_upsert hr with ⟨hmem, _⟩ | ⟨_, _, hallow, hstatus, _⟩
  · exact hps r hmem
  · unfold statusAllowCoherent
    rw [hallow, hstatus]
    exact hpair

/-! ### The grant/revoke loops of `set_trusted_orgs` -/

/-- One iteration of the grant loop of `set_trusted_orgs`. -/
def grantStepDB (db : DB) (d w o : Nat) (sc ex : Option String) (now : Nat) : DB :=
  addLog (addLog (setPerms db (upsert_permission db.permissions d o 1 "granted" sc ex now))
    (grantLogEntry d w o sc ex now)) (puLogEntry d w "grant" o now)

/-- One iteration of the revoke loop of `set_trusted_orgs`. -/
def revokeStepDB (db : DB) (d w o : Nat) (now : Nat) : DB :=
  addLog (addLog (setPerms db (upsert_permission db.permissions d o 0 "revoked" none none now))
    (revokeLogEntry d w o now)) (puLogEntry d w "revoke" o now)

theorem apply_grants_cons (d w o : Nat) (sc ex : Option String) (now : Nat)
    (db : DB) (rest : List Nat) :
    apply_grants d w sc ex now db (o :: rest) =
      apply_grants d w sc ex now (grantStepDB db d w o sc ex now) rest := rfl

theorem apply_revokes_cons (d w o now : Nat) (db : DB) (rest : List Nat) :
    apply_revokes d w now db (o :: rest) =
      apply_revokes d w now (revokeStepDB db d w o now) rest := rfl

theorem grantStepDB_perms (db : DB) (d w o : Nat) (sc ex : Option String) (now : Nat) :
    (grantStepDB db d w o sc ex now).permissions =
      upsert_permission db.permissions d o 1 "granted" sc ex now := rfl

theorem revokeStepDB_perms (db : DB) (d w o now : Nat) :
    (revokeStepDB db d w o now).permissions =
      upsert_permission db.permissions d o 0 "revoked" none none now := rfl

/-- Specification of the grant loop: it always succeeds, every listed org
ends with a granted (allow=1) row on the dataset, rows off the written keys
are untouched, and every row is either old or freshly granted. -/
theorem apply_grants_spec (d w : Nat) (sc ex : Option String) (now : Nat) :
    ∀ (l : List Nat) (db : DB), ∃ db',
      apply_grants d w sc ex now db l = .ok db' ∧
      (∀ o ∈ l,
        (∀ r ∈ db'.permissions, r.dataset_id = d → r.org_id = o →
            r.allow = 1 ∧ r.status = "granted") ∧
        grantedIn db'.permissions d o) ∧
      (∀ r : PermRow, ¬(r.dataset_id = d ∧ r.org_id ∈ l) →
          (r ∈ db'.permissions ↔ r ∈ db.permissions)) ∧
      (∀ r ∈ db'.permissions, r ∈ db.permissions ∨ (r.allow = 1 ∧ r.status = "granted")) := by
  intro l
  induction l with
  | nil =>
      intro db
      exact ⟨db, rfl, by simp, fun r _ => Iff.rfl, fun r hr => Or.inl hr⟩
  | cons o rest ih =>
      intro db
      obtain ⟨db', heq, hS1, hS2, hS3⟩ := ih (grantStepDB db d w o sc ex now)
      refine ⟨db', ?_, ?_, ?_, ?_⟩
      · rw [apply_grants_cons]
        exact heq
      · intro o' ho'
        by_cases hrest : o' ∈ rest
        · exact hS1 o' hrest
        · have ho : o' = o := by
            rcases List.mem_cons.mp ho' with h | h
            · exact h
            · exact absurd h hrest
          subst ho
          constructor
          · intro r hr hrd hro
            have hframe : r ∈ db'.permissions ↔ r ∈ (grantStepDB db d w o' sc ex now).permissions := by
              apply hS2 r
              intro hcontra
              exact hrest (hro ▸ hcontra.2)
            have hr2 : r ∈ upsert_permission db.permissions d o' 1 "granted" sc ex now := by
              rw [← grantStepDB_perms db d w o' sc ex now]
              exact hframe.mp hr
            rcases mem_upsert hr2 with ⟨_, hnk⟩ | ⟨_, _, ha, hs, _⟩
            · exact absurd ⟨hrd, hro⟩ hnk
            · exact ⟨ha, hs⟩
          · obtain ⟨r, hr, hrd, hro, hra, hrs, _⟩ :=
              upsert_exists_key db.permissions d o' 1 "granted" sc ex now
            refine ⟨r, ?_, hrd, hro, hra, hrs⟩
            have hframe : r ∈ db'.permissions ↔ r ∈ (grantStepDB db d w o' sc ex now).permissions := by
              apply hS2 r
              intro hcontra
              exact hrest (hro ▸ hcontra.2)
            rw [hframe, grantStepDB_perms]
            exact hr
      · intro r hnk
        have h1 : ¬(r.dataset_id = d ∧ r.org_id ∈ rest) := by
          rintro ⟨hd, ho⟩
          exact hnk ⟨hd, List.mem_cons_of_mem _ ho⟩
        have h2 : ¬(r.dataset_id = d ∧ r.org_id = o) := by
          rintro ⟨hd, ho⟩
          exact hnk ⟨hd, ho ▸ List.mem_cons_self o rest⟩
        rw [hS2 r h1, grantStepDB_perms]
        constructor
        · intro hr
          rcases mem_upsert hr with ⟨hm, _⟩ | ⟨hd, ho, _⟩
          · exact hm
          · exact absurd ⟨hd, ho⟩ h2
        · intro hr
          exact mem_upsert_frame h2 hr
      · intro r hr
        rcases hS3 r hr with hm | hv
        · rw [grantStepDB_perms] at hm
          rcases mem_upsert hm with ⟨hm2, _⟩ | ⟨_, _, ha, hs, _⟩
          · exact Or.inl hm2
          · exact Or.inr ⟨ha, hs⟩
        · exact Or.inr hv

/-- Specification of the revoke loop: it always succeeds, every listed org
ends with only revoked (allow=0) rows on the dataset, rows off the written
keys are untouched, and every row is either old or freshly revoked. -/
theorem apply_revokes_spec (d w : Nat) (now : Nat) :
    ∀ (l : List Nat) (db : DB), ∃ db',
      apply_revokes d w now db l = .ok db' ∧
      (∀ o ∈ l,
        (∀ r ∈ db'.permissions, r.dataset_id = d → r.org_id = o →
            r.allow = 0 ∧ r.status = "revoked") ∧
        ∃ r ∈ db'.permissions, r.dataset_id = d ∧ r.org_id = o) ∧
      (∀ r : PermRow, ¬(r.dataset_id = d ∧ r.org_id ∈ l) →
          (r ∈ db'.permissions ↔ r ∈ db.permissions)) ∧
      (∀ r ∈ db'.permissions, r ∈ db.permissions ∨ (r.allow = 0 ∧ r.status = "revoked")) := by
  intro l
  induction l with
  | nil =>
      intro db
      exact ⟨db, rfl, by simp, fun r _ => Iff.rfl, fun r hr => Or.inl hr⟩
  | cons o rest ih =>
      intro db
      obtain ⟨db', heq, hS1, hS2, hS3⟩ := ih (revokeStepDB db d w o now)
      refine ⟨db', ?_, ?_, ?_, ?_⟩
      · rw [apply_revokes_cons]
        exact heq
      · intro o' ho'
        by_cases hrest : o' ∈ rest
        · exact hS1 o' hrest
        · have ho : o' = o := by
            rcases List.mem_cons.mp ho' with h | h
            · exact h
            · exact absurd h hrest
          subst ho
          constructor
          · intro r hr hrd hro
            have hframe : r ∈ db'.permissions ↔ r ∈ (revokeStepDB db d w o' now).permissions := by
              apply hS2 r
              intro hcontra
              exact hrest (hro ▸ hcontra.2)
            have hr2 : r ∈ upsert_permission db.permissions d o' 0 "revoked" none none now := by
              rw [← revokeStepDB_perms db d w o' now]
              exact hframe.mp hr
            rcases mem_upsert hr2 with ⟨_, hnk⟩ | ⟨_, _, ha, hs, _⟩
            · exact absurd ⟨hrd, hro⟩ hnk
            · exact ⟨ha, hs⟩
          · obtain ⟨r, hr, hrd, hro, _⟩ :=
              upsert_exists_key db.permissions d o' 0 "revoked" none none now
            refine ⟨r, ?_, hrd, hro⟩
            have hframe : r ∈ db'.permissions ↔ r ∈ (revokeStepDB db d w o' now).permissions := by
              apply hS2 r
              intro hcontra
              exact hrest (hro ▸ hcontra.2)
            rw [hframe, revokeStepDB_perms]
            exact hr
      · intro r hnk
        have h1 : ¬(r.dataset_id = d ∧ r.org_id ∈ rest) := by
          rintro ⟨hd, ho⟩
          exact hnk ⟨hd, List.mem_cons_of_mem _ ho⟩
        have h2 : ¬(r.dataset_id = d ∧ r.org_id = o) := by
          rintro ⟨hd, ho⟩
          exact hnk ⟨hd, ho ▸ List.mem_cons_self o rest⟩
        rw [hS2 r h1, revokeStepDB_perms]
        constructor
        · intro hr
          rcases mem_upsert hr with ⟨hm, _⟩ | ⟨hd, ho, _⟩
          · exact hm
          · exact absurd ⟨hd, ho⟩ h2
        · intro hr
          exact mem_upsert_frame h2 hr
      · intro r hr
        rcases hS3 r hr with hm | hv
        · rw [revokeStepDB_perms] at hm
          rcases mem_upsert hm with ⟨hm2, _⟩ | ⟨_, _, ha, hs, _⟩
          · exact Or.inl hm2
          · exact Or.inr ⟨ha, hs⟩
        · exact Or.inr hv

theorem contains_iff_mem {l : List Nat} {a : Nat} : l.contains a = true ↔ a ∈ l :=
  List.elem_iff

theorem contains_false_iff {l : List Nat} {a : Nat} : l.contains a = false ↔ a ∉ l := by
  rw [← contains_iff_mem]
  cases h : l.contains a <;> simp

/-- The added list computed by `set_trusted_orgs`. -/
def addedOf (db : DB) (d : Nat) (ids : List Nat) : List Nat :=
  sortNat (ids.dedup.filter (fun o => (currentGrantedOrgs db.permissions d).contains o = false))

/-- The removed list computed by `set_trusted_orgs`. -/
def removedOf (db : DB) (d : Nat) (ids : List Nat) : List Nat :=
  sortNat ((currentGrantedOrgs db.permissions d).filter (fun o => ids.dedup.contains o = false))

theorem set_trusted_orgs_eq (db : DB) (d w : Nat) (ids : List Nat)
    (sc ex : Option String) (now : Nat) :
    set_trusted_orgs db d w ids sc ex now =
      (apply_grants d w (sanitize_scope sc) ex now db (addedOf db d ids)).bind
        (fun dbA => (apply_revokes d w now dbA (removedOf db d ids)).bind
          (fun dbR => .ok (addedOf db d ids, removedOf db d ids, dbR))) := rfl

theorem Except_bind_ok {ε α β : Type} (a : α) (f : α → Except ε β) :
    (Except.ok a : Except ε α).bind f = f a := rfl

theorem mem_addedOf {db : DB} {d : Nat} {ids : List Nat} {o : Nat} :
    o ∈ addedOf db d ids ↔ (o ∈ ids ∧ ¬ grantedIn db.permissions d o) := by
  unfold addedOf
  rw [mem_sortNat, List.mem_filter, List.mem_dedup]
  constructor
  · rintro ⟨hmem, hpred⟩
    refine ⟨hmem, fun hg => ?_⟩
    simp only [decide_eq_true_eq] at hpred
    exact absurd (mem_currentGrantedOrgs.mpr hg) (contains_false_iff.mp hpred)
  · rintro ⟨hmem, hg⟩
    refine ⟨hmem, ?_⟩
    simp only [decide_eq_true_eq]
    exact contains_false_iff.mpr (fun hc => hg (mem_currentGrantedOrgs.mp hc))

theorem mem_removedOf {db : DB} {d : Nat} {ids : List Nat} {o : Nat} :
    o ∈ removedOf db d ids ↔ (grantedIn db.permissions d o ∧ o ∉ ids) := by
  unfold removedOf
  rw [mem_sortNat, List.mem_filter]
  constructor
  · rintro ⟨hmem, hpred⟩
    refine ⟨mem_currentGrantedOrgs.mp hmem, fun hin => ?_⟩
    simp only [decide_eq_true_eq] at hpred
    exact contains_false_iff.mp hpred (List.mem_dedup.mpr hin)
  · rintro ⟨hg, hnin⟩
    refine ⟨mem_currentGrantedOrgs.mpr hg, ?_⟩
    simp only [decide_eq_true_eq]
    exact contains_false_iff.mpr (fun hc => hnin (List.mem_dedup.mp hc))

/-- Transport of `grantedIn` along a frame condition at the key. -/
theorem grantedIn_congr {ps1 ps2 : List PermRow} {d o : Nat}
    (h : ∀ r : PermRow, r.dataset_id = d → r.org_id = o → (r ∈ ps1 ↔ r ∈ ps2)) :
    grantedIn ps1 d o ↔ grantedIn ps2 d o := by
  unfold grantedIn
  constructor
  · rintro ⟨r, hr, h1, h2, h3, h4⟩
    exact ⟨r, (h r h1 h2).mp hr, h1, h2, h3, h4⟩
  · rintro ⟨r, hr, h1, h2, h3, h4⟩
    exact ⟨r, (h r h1 h2).mpr hr, h1, h2, h3, h4⟩

/-- After a successful `set_trusted_orgs`, the returned lists are exactly the
computed diff and an org holds an active grant iff it is in the desired
list. -/
theorem set_trusted_orgs_granted_iff (db : DB) (d w : Nat) (ids : List Nat)
    (sc ex : Option String) (now : Nat) (a r : List Nat) (db1 : DB)
    (h : set_trusted_orgs db d w ids sc ex now = .ok (a, r, db1)) :
    a = addedOf db d ids ∧ r = removedOf db d ids ∧
    (∀ o, grantedIn db1.permissions d o ↔ o ∈ ids) := by
  obtain ⟨dbA, hA, hG1, hG2, hG3⟩ :=
    apply_grants_spec d w (sanitize_scope sc) ex now (addedOf db d ids) db
  obtain ⟨dbR, hR, hR1, hR2, hR3⟩ :=
    apply_revokes_spec d w now (removedOf db d ids) dbA
  have hcomp : set_trusted_orgs db d w ids sc ex now =
      .ok (addedOf db d ids, removedOf db d ids, dbR) := by
    rw [set_trusted_orgs_eq, hA, Except_bind_ok, hR, Except_bind_ok]
  have hp : (addedOf db d ids, removedOf db d ids, dbR) = (a, r, db1) :=
    Except.ok.inj (hcomp.symm.trans h)
  obtain ⟨hpa, hpr, hpdb⟩ : addedOf db d ids = a ∧ removedOf db d ids = r ∧ dbR = db1 := by
    simpa [Prod.ext_iff] using hp
  subst hpa
  subst hpr
  subst hpdb
  refine ⟨rfl, rfl, ?_⟩
  intro o
  by_cases hid : o ∈ ids <;> by_cases hg : grantedIn db.permissions d o
  · -- already granted and desired: untouched by both loops
    have hna : o ∉ addedOf db d ids := fun hmem => (mem_addedOf.mp hmem).2 hg
    have hnr : o ∉ removedOf db d ids := fun hmem => (mem_removedOf.mp hmem).2 hid
    have h1 : grantedIn dbA.permissions d o ↔ grantedIn db.permissions d o :=
      grantedIn_congr (fun rr _ hro => hG2 rr (fun hc => hna (hro ▸ hc.2)))
    have h2 : grantedIn dbR.permissions d o ↔ grantedIn dbA.permissions d o :=
      grantedIn_congr (fun rr _ hro => hR2 rr (fun hc => hnr (hro ▸ hc.2)))
    simp [h2, h1, hg, hid]
  · -- desired but not yet granted: granted by the grant loop, kept
    have hin : o ∈ addedOf db d ids := mem_addedOf.mpr ⟨hid, hg⟩
    have hnr : o ∉ removedOf db d ids := fun hmem => (mem_removedOf.mp hmem).2 hid
    have h2 : grantedIn dbR.permissions d o ↔ grantedIn dbA.permissions d o :=
      grantedIn_congr (fun rr _ hro => hR2 rr (fun hc => hnr (hro ▸ hc.2)))
    simp [h2, (hG1 o hin).2, hid]
  · -- granted but no longer desired: revoked by the revoke loop
    have hin : o ∈ removedOf db d ids := mem_removedOf.mpr ⟨hg, hid⟩
    have hngr : ¬ grantedIn dbR.permissions d o := by
      rintro ⟨rr, hrr, h1, h2, h3, h4⟩
      have := ((hR1 o hin).1 rr hrr h1 h2).2
      rw [h4] at this
      exact absurd this (by decide)
    simp [hngr, hid]
  · -- neither granted nor desired: untouched by both loops
    have hna : o ∉ addedOf db d ids := fun hmem => hid (mem_addedOf.mp hmem).1
    have hnr : o ∉ removedOf db d ids := fun hmem => hg (mem_removedOf.mp hmem).1
    have h1 : grantedIn dbA.permissions d o ↔ grantedIn db.permissions d o :=
      grantedIn_congr (fun rr _ hro => hG2 rr (fun hc => hna (hro ▸ hc.2)))
    have h2 : grantedIn dbR.permissions d o ↔ grantedIn dbA.permissions d o :=
      grantedIn_congr (fun rr _ hro => hR2 rr (fun hc => hnr (hro ▸ hc.2)))
    simp [h2, h1, hg, hid]

/-- A row whose (allow, status) pair is one of the three written by the
transitions is coherent. -/
theorem coherent_of_vals {rr : PermRow} {a : Nat} {st : String}
    (h1 : rr.allow = a) (h2 : rr.status = st)
    (hpair : (st = "granted" → a = 1) ∧ (st = "revoked" → a = 0) ∧ (st = "pending" → a = 0)) :
    statusAllowCoherent rr := by
  unfold statusAllowCoherent
  rw [h1, h2]
  exact hpair

/-! ## Claim theorems -/

/-- C2 (counterexample): `request_access` on a fresh store writes exactly one
audit row, whose action is `request_access` — there is no paired
`permissions_update` row, contradicting the claim that every allow/status
transition writes the specific action plus a generic `permissions_update`. -/
theorem request_access_single_log_counterexample :
    (request_access ⟨[], [], [], [], [], 1⟩ 1 2 none 0).map
        (fun st => st.access_logs.map AuditEntry.action) =
      .ok ["request_access"] ∧
    ("request_access" : String) ≠ "permissions_update" := by
  constructor
  · rfl
  · decide

/-- C2 (amended): request_access, approve_request, deny_request,
grant_access and revoke_access each perform exactly one upsert on the
(dataset, org) permission row, within one transaction; approve, deny, grant
and revoke write exactly the paired audit rows (the specific action plus a
generic `permissions_update`), while request_access writes only its single
`request_access` row. -/
theorem permission_transitions_upsert_and_log (db : DB) (d w o : Nat)
    (sc ex msg reason : Option String) (now : Nat) :
    (∀ db', grant_access db d w o sc ex now = .ok db' →
        db'.permissions = upsert_permission db.permissions d o 1 "granted" (sanitize_scope sc) ex now ∧
        db'.access_logs.map AuditEntry.action =
          db.access_logs.map AuditEntry.action ++ ["grant", "permissions_update"]) ∧
    (∀ db', revoke_access db d w o now = .ok db' →
        db'.permissions = upsert_permission db.permissions d o 0 "revoked" none none now ∧
        db'.access_logs.map AuditEntry.action =
          db.access_logs.map AuditEntry.action ++ ["revoke", "permissions_update"]) ∧
    (∀ db', approve_request db d w o sc ex now = .ok db' →
        db'.permissions = upsert_permission db.permissions d o 1 "granted" (sanitize_scope sc) ex now ∧
        db'.access_logs.map AuditEntry.action =
          db.access_logs.map AuditEntry.action ++ ["grant", "permissions_update"]) ∧
    (∀ db', deny_request db d w o reason now = .ok db' →
        db'.permissions = upsert_permission db.permissions d o 0 "revoked" none none now ∧
        db'.access_logs.map AuditEntry.action =
          db.access_logs.map AuditEntry.action ++ ["denied", "permissions_update"]) ∧
    (∀ db', request_access db d o msg now = .ok db' →
        db'.permissions = upsert_permission db.permissions d o 0 "pending" none none now ∧
        db'.access_logs.map AuditEntry.action =
          db.access_logs.map AuditEntry.action ++ ["request_access"]) := by
  refine ⟨?_, ?_, ?_, ?_, ?_⟩
  · intro db' h
    obtain rfl := Except.ok.inj ((grant_access_eq db d w o sc ex now).symm.trans h)
    exact ⟨rfl, by simp [addLog, setPerms, grantLogEntry, puLogEntry]⟩
  · intro db' h
    obtain rfl := Except.ok.inj ((revoke_access_eq db d w o now).symm.trans h)
    exact ⟨rfl, by simp [addLog, setPerms, revokeLogEntry, puLogEntry]⟩
  · intro db' h
    obtain rfl := Except.ok.inj ((approve_request_eq db d w o sc ex now).symm.trans h)
    exact ⟨rfl, by simp [addLog, setPerms, grantLogEntry, puLogEntry]⟩
  · intro db' h
    obtain rfl := Except.ok.inj ((deny_request_eq db d w o reason now).symm.trans h)
    exact ⟨rfl, by simp [addLog, setPerms, deniedLogEntry, puLogEntry]⟩
  · intro db' h
    obtain rfl := Except.ok.inj ((request_access_eq db d o msg now).symm.trans h)
    exact ⟨rfl, by simp [addLog, setPerms, requestLogEntry]⟩

/-- C6: `set_trusted_orgs` is idempotent — a second call with the same
desired set returns empty added and removed lists and the unchanged state —
and each call grants exactly the desired orgs not currently granted and
revokes exactly the currently granted orgs not desired. -/
theorem set_trusted_orgs_idempotent (db : DB) (d w : Nat) (ids : List Nat)
    (sc ex : Option String) (now now2 : Nat) (a r : List Nat) (db1 : DB)
    (h : set_trusted_orgs db d w ids sc ex now = .ok (a, r, db1)) :
    set_trusted_orgs db1 d w ids sc ex now2 = .ok ([], [], db1) ∧
    (∀ o, o ∈ a ↔ (o ∈ ids ∧ ¬ grantedIn db.permissions d o)) ∧
    (∀ o, o ∈ r ↔ (grantedIn db.permissions d o ∧ o ∉ ids)) := by
  obtain ⟨ha, hr', hgr⟩ := set_trusted_orgs_granted_iff db d w ids sc ex now a r db1 h
  refine ⟨?_, ?_, ?_⟩
  · have haddnil : addedOf db1 d ids = [] := by
      unfold addedOf
      have hfil : ids.dedup.filter
          (fun o => decide ((currentGrantedOrgs db1.permissions d).contains o = false)) = [] := by
        rw [List.filter_eq_nil_iff]
        intro o ho
        simp only [decide_eq_true_eq, contains_false_iff, not_not]
        exact mem_currentGrantedOrgs.mpr ((hgr o).mpr (List.mem_dedup.mp ho))
      rw [hfil]
      rfl
    have hremnil : removedOf db1 d ids = [] := by
      unfold removedOf
      have hfil : (currentGrantedOrgs db1.permissions d).filter
          (fun o => decide (ids.dedup.contains o = false)) = [] := by
        rw [List.filter_eq_nil_iff]
        intro o ho
        simp only [decide_eq_true_eq, contains_false_iff, not_not]
        exact List.mem_dedup.mpr ((hgr o).mp (mem_currentGrantedOrgs.mp ho))
      rw [hfil]
      rfl
    rw [set_trusted_orgs_eq db1 d w ids sc ex now2, haddnil, hremnil]
    rfl
  · intro o
    rw [ha, mem_addedOf]
  · intro o
    rw [hr', mem_removedOf]

/-- C8: every permission-store transition writes status and allow together,
so the coherence invariant (granted⇒allow=1, revoked⇒allow=0,
pending⇒allow=0) holds for every row after any of the operations, given it
held before. -/
theorem permission_status_allow_invariant (db : DB) (d w o : Nat)
    (sc ex msg reason : Option String) (ids : List Nat) (now : Nat)
    (hinv : ∀ r ∈ db.permissions, statusAllowCoherent r) :
    (∀ db', grant_access db d w o sc ex now = .ok db' →
        ∀ r ∈ db'.permissions, statusAllowCoherent r) ∧
    (∀ db', revoke_access db d w o now = .ok db' →
        ∀ r ∈ db'.permissions, statusAllowCoherent r) ∧
    (∀ db', request_access db d o msg now = .ok db' →
        ∀ r ∈ db'.permissions, statusAllowCoherent r) ∧
    (∀ db', approve_request db d w o sc ex now = .ok db' →
        ∀ r ∈ db'.permissions, statusAllowCoherent r) ∧
    (∀ db', deny_request db d w o reason now = .ok db' →
        ∀ r ∈ db'.permissions, statusAllowCoherent r) ∧
    (∀ db', update_permission_details db d w o sc ex now = .ok db' →
        ∀ r ∈ db'.permissions, statusAllowCoherent r) ∧
    (∀ a r db', set_trusted_orgs db d w ids sc ex now = .ok (a, r, db') →
        ∀ rr ∈ db'.permissions, statusAllowCoherent rr) := by
  refine ⟨?_, ?_, ?_, ?_, ?_, ?_, ?_⟩
  · intro db' h
    obtain rfl := Except.ok.inj ((grant_access_eq db d w o sc ex now).symm.trans h)
    exact upsert_preserves_coherent (by decide) hinv
  · intro db' h
    obtain rfl := Except.ok.inj ((revoke_access_eq db d w o now).symm.trans h)
    exact upsert_preserves_coherent (by decide) hinv
  · intro db' h
    obtain rfl := Except.ok.inj ((request_access_eq db d o msg now).symm.trans h)
    exact upsert_preserves_coherent (by decide) hinv
  · intro db' h
    obtain rfl := Except.ok.inj ((approve_request_eq db d w o sc ex now).symm.trans h)
    exact upsert_preserves_coherent (by decide) hinv
  · intro db' h
    obtain rfl := Except.ok.inj ((deny_request_eq db d w o reason now).symm.trans h)
    exact upsert_preserves_coherent (by decide) hinv
  · intro db' h
    obtain rfl := Except.ok.inj ((update_permission_details_eq db d w o sc ex now).symm.trans h)
    exact upsert_preserves_coherent (by decide) hinv
  · intro a r db' h
    obtain ⟨dbA, hA, _, _, hG3⟩ :=
      apply_grants_spec d w (sanitize_scope sc) ex now (addedOf db d ids) db
    obtain ⟨dbR, hR, _, _, hR3⟩ :=
      apply_revokes_spec d w now (removedOf db d ids) dbA
    have hcomp : set_trusted_orgs db d w ids sc ex now =
        .ok (addedOf db d ids, removedOf db d ids, dbR) := by
      rw [set_trusted_orgs_eq, hA, Except_bind_ok, hR, Except_bind_ok]
    have hp : (addedOf db d ids, removedOf db d ids, dbR) = (a, r, db') :=
      Except.ok.inj (hcomp.symm.trans h)
    obtain ⟨_, _, hpdb⟩ : addedOf db d ids = a ∧ removedOf db d ids = r ∧ dbR = db' := by
      simpa [Prod.ext_iff] using hp
    subst hpdb
    intro rr hrr
    rcases hR3 rr hrr with hmA | hv
    · rcases hG3 rr hmA with hm0 | hv
      · exact hinv rr hm0
      · exact coherent_of_vals hv.1 hv.2 (by decide)
    · exact coherent_of_vals hv.1 hv.2 (by decide)

/-- C10: `revoke_access` and `request_access` rewrite scope and expires_at
to null on the (dataset, org) row even when a non-null scope or expiry was
stored, and a later re-grant carries exactly the newly supplied scope and
expiry, not the old ones. -/
theorem upsert_overwrites_scope_expiry (db : DB) (d w o : Nat) (r0 : PermRow)
    (sc2 ex2 msg : Option String) (now now2 : Nat)
    (h0 : r0 ∈ db.permissions) (hk : r0.dataset_id = d ∧ r0.org_id = o)
    (hnn : r0.scope ≠ none ∨ r0.expires_at ≠ none) :
    (∀ db', revoke_access db d w o now = .ok db' →
        ∀ r ∈ db'.permissions, r.dataset_id = d → r.org_id = o →
          r.scope = none ∧ r.expires_at = none) ∧
    (∀ db', request_access db d o msg now = .ok db' →
        ∀ r ∈ db'.permissions, r.dataset_id = d → r.org_id = o →
          r.scope = none ∧ r.expires_at = none) ∧
    (∀ db' db'', revoke_access db d w o now = .ok db' →
        grant_access db' d w o sc2 ex2 now2 = .ok db'' →
        ∀ r ∈ db''.permissions, r.dataset_id = d → r.org_id = o →
          r.scope = sanitize_scope sc2 ∧ r.expires_at = ex2) := by
  refine ⟨?_, ?_, ?_⟩
  · intro db' h r hr hrd hro
    obtain rfl := Except.ok.inj ((revoke_access_eq db d w o now).symm.trans h)
    rcases mem_upsert hr with ⟨_, hnk⟩ | ⟨_, _, _, _, hsc, hex⟩
    · exact absurd ⟨hrd, hro⟩ hnk
    · exact ⟨hsc, hex⟩
  · intro db' h r hr hrd hro
    obtain rfl := Except.ok.inj ((request_access_eq db d o msg now).symm.trans h)
    rcases mem_upsert hr with ⟨_, hnk⟩ | ⟨_, _, _, _, hsc, hex⟩
    · exact absurd ⟨hrd, hro⟩ hnk
    · exact ⟨hsc, hex⟩
  · intro db' db'' h1 h2 r hr hrd hro
    obtain rfl := Except.ok.inj ((revoke_access_eq db d w o now).symm.trans h1)
    obtain rfl := Except.ok.inj ((grant_access_eq _ d w o sc2 ex2 now2).symm.trans h2)
    rcases mem_upsert hr with ⟨_, hnk⟩ | ⟨_, _, _, _, hsc, hex⟩
    · exact absurd ⟨hrd, hro⟩ hnk
    · exact ⟨hsc, hex⟩

/-- C1 (code bug): with logging enabled, `assert_can_access` always raises
`ValueError` out of `log_event`, because the actions it logs
(`data_access_allowed` / `data_access_denied`) are not in `ALLOWED_ACTIONS`;
no audit row is ever written and the promised `PermissionError` on denial is
never reached. -/
theorem assert_can_access_invalid_action (db : DB) (today : String) (i : Nat)
    (aid : Option Nat) (arole : Option String) (purpose : Option String) (now : Nat) :
    assert_can_access db today i aid arole purpose true now =
      .error (.valueError ("Invalid action: " ++
        (if (can_access db today i aid arole).allowed then "data_access_allowed"
         else "data_access_denied"))) := by
  have h1 : ("data_access_allowed" : String) ∉ ALLOWED_ACTIONS := by decide
  have h2 : ("data_access_denied" : String) ∉ ALLOWED_ACTIONS := by decide
  have hs1 : pystrip "data_access_allowed" = "data_access_allowed" := by decide
  have hs2 : pystrip "data_access_denied" = "data_access_denied" := by decide
  unfold assert_can_access
  cases hall : (can_access db today i aid arole).allowed
  · simp [hall, log_event, h2, hs2, Bind.bind, Except.bind]
  · simp [hall, log_event, h1, hs1, Bind.bind, Except.bind]

/-- A Private dataset owned by user 10, probed by the unknown actor id 5. -/
def privDB : DB :=
  ⟨[⟨10, "user", 1, "owner"⟩],
   [⟨1, 10, "d", "", "text/plain", [], "Private", 1, 0, none⟩], [], [], [], 2⟩

/-- C4 (counterexample): on a Private dataset, an actor id with no matching
user record is denied with reason `forbidden`, not `private` as claimed. -/
theorem can_access_unknown_actor_counterexample :
    can_access privDB "2026-01-01" 1 (some 5) (some "user") = ⟨false, "forbidden", none⟩ ∧
    ("forbidden" : String) ≠ "private" := by
  constructor
  · rfl
  · decide

/-- C4 (amended): on a Private dataset, anonymous actors and known actors
that are neither the owner nor an admin are denied with reason `private`;
a supplied actor id with no user record is denied with reason `forbidden`;
the owner and admins are allowed with reason `ok`. -/
theorem can_access_private_policy (db : DB) (today : String) (i : Nat)
    (role : Option String) (ds : Dataset)
    (hds : fetch_dataset db i = some ds) (hvis : ds.visibility = "Private") :
    (can_access db today i none role = ⟨false, "private", none⟩) ∧
    (∀ a, fetch_user db a = none →
        can_access db today i (some a) role = ⟨false, "forbidden", none⟩) ∧
    (∀ a u, fetch_user db a = some u → a ≠ ds.owner_id → u.role ≠ "admin" →
        can_access db today i (some a) role = ⟨false, "private", none⟩) ∧
    (∀ u, fetch_user db ds.owner_id = some u →
        can_access db today i (some ds.owner_id) role =
          ⟨true, "ok", some ⟨"owner", none, none⟩⟩) ∧
    (∀ a u, fetch_user db a = some u → u.role = "admin" → a ≠ ds.owner_id →
        can_access db today i (some a) role = ⟨true, "ok", some ⟨"admin", none, none⟩⟩) := by
  refine ⟨?_, ?_, ?_, ?_, ?_⟩
  · simp [can_access, hds, hvis]
  · intro a hu
    simp [can_access, hds, hu]
  · intro a u hu hna hrole
    simp [can_access, hds, hu, hna, hrole, hvis]
  · intro u hu
    simp [can_access, hds, hu]
  · intro a u hu hrole hna
    simp [can_access, hds, hu, hrole, hna]

/-- Users for the C4 witness: the owner, an admin and an unrelated user. -/
def privWDB : DB :=
  ⟨[⟨10, "user", 1, "ow"⟩, ⟨11, "admin", 1, "ad"⟩, ⟨12, "user", 1, "other"⟩],
   [⟨1, 10, "d", "", "text/plain", [], "Private", 1, 0, none⟩], [], [], [], 2⟩

theorem can_access_private_policy_witness :
    can_access privWDB "2026-01-01" 1 (some 12) (some "user") = ⟨false, "private", none⟩ ∧
    can_access privWDB "2026-01-01" 1 (some 10) (some "user") =
      ⟨true, "ok", some ⟨"owner", none, none⟩⟩ ∧
    can_access privWDB "2026-01-01" 1 (some 11) (some "user") =
      ⟨true, "ok", some ⟨"admin", none, none⟩⟩ := by
  have h := can_access_private_policy privWDB "2026-01-01" 1 (some "user")
    ⟨1, 10, "d", "", "text/plain", [], "Private", 1, 0, none⟩ rfl rfl
  exact ⟨h.2.2.1 12 ⟨12, "user", 1, "other"⟩ rfl (by decide) (by decide),
         h.2.2.2.1 ⟨10, "user", 1, "ow"⟩ rfl,
         h.2.2.2.2 11 ⟨11, "admin", 1, "ad"⟩ rfl rfl (by decide)⟩

/-- C5: on a Trusted dataset, a verified org (not owner, not admin) holding
an allow=1/granted permission is denied with reason `expired` exactly when
the stored expiry date is strictly before today in Python string order;
an expiry equal to today or later, or a null expiry, allows with mode
`trusted`, carrying the grant scope and expiry. -/
theorem can_access_trusted_expiry (db : DB) (today : String) (i a : Nat)
    (ds : Dataset) (u : User) (g : PermRow)
    (hds : fetch_dataset db i = some ds) (hvis : ds.visibility = "Trusted")
    (ha0 : a ≠ 0) (hown : a ≠ ds.owner_id)
    (hu : fetch_user db a = some u) (hurole : u.role = "org") (hver : u.verified = 1)
    (hg : fetch_grant db i a = some g) (hallow : g.allow = 1) (hst : g.status = "granted") :
    (∀ e, g.expires_at = some e → e ≠ "" → pyStrLt e today →
        can_access db today i (some a) (some "org") =
          ⟨false, "expired", some ⟨"trusted", g.scope, g.expires_at⟩⟩) ∧
    (∀ e, g.expires_at = some e → ¬ pyStrLt e today →
        can_access db today i (some a) (some "org") =
          ⟨true, "ok", some ⟨"trusted", g.scope, g.expires_at⟩⟩) ∧
    (g.expires_at = none →
        can_access db today i (some a) (some "org") =
          ⟨true, "ok", some ⟨"trusted", g.scope, none⟩⟩) := by
  refine ⟨?_, ?_, ?_⟩
  · intro e he hne hlt
    simp [can_access, hds, hvis, ha0, hown, hu, hurole, hver, hg, hallow, hst, he, hne, hlt]
  · intro e he hnlt
    simp [can_access, hds, hvis, ha0, hown, hu, hurole, hver, hg, hallow, hst, he, hnlt]
  · intro he
    simp [can_access, hds, hvis, ha0, hown, hu, hurole, hver, hg, hallow, hst, he]

/-- Store for the C5 witness: Trusted dataset 1 owned by 10; verified org 2
holds a granted permission with scope `agg` expiring 2026-01-01. -/
def trustDB : DB :=
  ⟨[⟨10, "user", 1, "ow"⟩, ⟨2, "org", 1, "orgco"⟩],
   [⟨1, 10, "d", "", "text/plain", [], "Trusted", 1, 0, none⟩],
   [⟨1, 2, 1, "granted", some "agg", some "2026-01-01", 0, none⟩], [], [], 2⟩

theorem can_access_trusted_expiry_witness :
    can_access trustDB "2026-01-02" 1 (some 2) (some "org") =
      ⟨false, "expired", some ⟨"trusted", some "agg", some "2026-01-01"⟩⟩ ∧
    can_access trustDB "2026-01-01" 1 (some 2) (some "org") =
      ⟨true, "ok", some ⟨"trusted", some "agg", some "2026-01-01"⟩⟩ := by
  have h1 := can_access_trusted_expiry trustDB "2026-01-02" 1 2
    ⟨1, 10, "d", "", "text/plain", [], "Trusted", 1, 0, none⟩ ⟨2, "org", 1, "orgco"⟩
    ⟨1, 2, 1, "granted", some "agg", some "2026-01-01", 0, none⟩
    rfl rfl (by decide) (by decide) rfl rfl rfl rfl rfl rfl
  have h2 := can_access_trusted_expiry trustDB "2026-01-01" 1 2
    ⟨1, 10, "d", "", "text/plain", [], "Trusted", 1, 0, none⟩ ⟨2, "org", 1, "orgco"⟩
    ⟨1, 2, 1, "granted", some "agg", some "2026-01-01", 0, none⟩
    rfl rfl (by decide) (by decide) rfl rfl rfl rfl rfl rfl
  exact ⟨h1.1 "2026-01-01" rfl (by decide) (by decide),
         h2.2.1 "2026-01-01" rfl (by decide)⟩

/-- The store reached by the C2-witness `request_access` call. -/
def reqOutDB : DB :=
  ⟨[], [], [⟨1, 2, 0, "pending", none, none, 0, some 0⟩],
   [⟨1, 2, "org", "request_access", [("message", some "")], 0⟩], [], 1⟩

theorem permission_transitions_upsert_and_log_witness :
    reqOutDB.permissions = upsert_permission ([] : List PermRow) 1 2 0 "pending" none none 0 ∧
    reqOutDB.access_logs.map AuditEntry.action =
      ([] : List AuditEntry).map AuditEntry.action ++ ["request_access"] :=
  (permission_transitions_upsert_and_log ⟨[], [], [], [], [], 1⟩ 1 10 2
    none none none none 0).2.2.2.2 reqOutDB rfl

/-- The store reached by the C6-witness first `set_trusted_orgs` call. -/
def stoDB1 : DB :=
  ⟨[], [], [⟨1, 2, 1, "granted", none, none, 0, some 0⟩],
   [⟨1, 10, "user", "grant", [("org_id", some "2"), ("scope", none), ("expires_at", none)], 0⟩,
    ⟨1, 10, "user", "permissions_update", [("op", some "grant"), ("org_id", some "2")], 0⟩],
   [], 1⟩

theorem set_trusted_orgs_idempotent_witness :
    set_trusted_orgs stoDB1 1 10 [2] none none 1 = .ok ([], [], stoDB1) :=
  (set_trusted_orgs_idempotent ⟨[], [], [], [], [], 1⟩ 1 10 [2] none none 0 1
    [2] [] stoDB1 rfl).1

/-- A coherent one-row permission table for the C8 witness. -/
def cohDB : DB := ⟨[], [], [⟨1, 2, 1, "granted", some "agg", none, 0, none⟩], [], [], 1⟩

theorem permission_status_allow_invariant_witness :
    (∀ r ∈ cohDB.permissions, statusAllowCoherent r) ∧
    (∀ db', revoke_access cohDB 1 10 2 5 = .ok db' →
        ∀ r ∈ db'.permissions, statusAllowCoherent r) :=
  ⟨by decide,
   (permission_status_allow_invariant cohDB 1 10 2 none none none none [] 5 (by decide)).2.1⟩

/-- A permission row with non-null scope and expiry for the C10 witness. -/
def frameDB : DB :=
  ⟨[], [], [⟨1, 2, 1, "granted", some "agg-only", some "2026-01-01", 0, none⟩], [], [], 1⟩

theorem upsert_overwrites_scope_expiry_witness :
    (⟨1, 2, 1, "granted", some "agg-only", some "2026-01-01", 0, none⟩ : PermRow)
        ∈ frameDB.permissions ∧
    (∀ db', revoke_access frameDB 1 10 2 5 = .ok db' →
        ∀ r ∈ db'.permissions, r.dataset_id = 1 → r.org_id = 2 →
          r.scope = none ∧ r.expires_at = none) :=
  ⟨by decide,
   (upsert_overwrites_scope_expiry frameDB 1 10 2
      ⟨1, 2, 1, "granted", some "agg-only", some "2026-01-01", 0, none⟩
      none none none 5 6 (by decide) (by decide) (by decide)).1⟩

/-! ### Rewards -/

/-- The `reward_credited` audit row mirrored by `credit_reward`. -/
def rewardLogEntry (d w o amount : Nat) (unit reason : String) (meta : LogMeta)
    (now : Nat) : AuditEntry :=
  ⟨d, w, "admin", "reward_credited",
   [("org_id", some (toString o)), ("amount", some (toString amount)),
    ("unit", some unit), ("reason", some reason)] ++ meta, now⟩

/-- At most one reward row per (dataset_id, org_id, calendar day). -/
def rewardKeyUnique (rs : List RewardRow) : Prop :=
  rs.Pairwise (fun x y => ¬(x.dataset_id = y.dataset_id ∧ x.org_id = y.org_id ∧ x.day = y.day))

instance (rs : List RewardRow) : Decidable (rewardKeyUnique rs) := by
  unfold rewardKeyUnique; infer_instance

/-- When a credit for (dataset, org) already exists today, the trigger is a
silent no-op. -/
theorem trigger_noop (db : DB) (d o : Nat) (role : String) (g : Grant)
    (purpose : Option String) (today now : Nat)
    (ho : o ≠ 0) (hrole : pylower role = "org")
    (hmode : g.mode = "trusted" ∨ g.mode = "public")
    (hcred : has_credit_today db today d o = true) :
    trigger_reward_on_access db d (some o) (some role) (some g) purpose today now = .ok db := by
  rcases hmode with hm | hm <;>
    simp [trigger_reward_on_access, ho, hrole, hm, hcred]

/-- When no credit for (dataset, org) exists today, the trigger inserts one
unit reward row for the owner, dated today, and mirrors a `reward_credited`
audit row. -/
theorem trigger_insert (db : DB) (d o w : Nat) (role : String) (g : Grant)
    (purpose : Option String) (today now : Nat)
    (ho : o ≠ 0) (hrole : pylower role = "org")
    (hmode : g.mode = "trusted" ∨ g.mode = "public")
    (hcred : has_credit_today db today d o = false)
    (howner : owner_id_for_dataset db d = .ok w) :
    trigger_reward_on_access db d (some o) (some role) (some g) purpose today now =
      .ok (addLog { db with rewards := db.rewards ++
            [⟨d, o, w, 1, "credit", "org_access:" ++ g.mode,
              [("purpose", some (orElseStr purpose "download")), ("mode", some g.mode)], today⟩] }
          (rewardLogEntry d w o 1 "credit" ("org_access:" ++ g.mode)
            [("purpose", some (orElseStr purpose "download")), ("mode", some g.mode)] now)) := by
  have m1 : ("reward_credited" : String) ∈ ALLOWED_ACTIONS := by decide
  have m2 : ("admin" : String) ∈ ALLOWED_ROLES := by decide
  have hs1 : pystrip "reward_credited" = "reward_credited" := by decide
  have hs2 : pystrip "admin" = "admin" := by decide
  rcases hmode with hm | hm <;>
    simp [trigger_reward_on_access, credit_reward, log_event, ho, hrole, hm, hcred,
      howner, m1, m2, hs1, hs2, Bind.bind, Except.bind, addLog, rewardLogEntry,
      Pure.pure, Except.pure]

/-- If the owner lookup fails, the trigger propagates the error. -/
theorem trigger_owner_error (db : DB) (d o : Nat) (role : String) (g : Grant)
    (purpose : Option String) (today now : Nat) (e : PyError)
    (ho : o ≠ 0) (hrole : pylower role = "org")
    (hmode : g.mode = "trusted" ∨ g.mode = "public")
    (hcred : has_credit_today db today d o = false)
    (howner : owner_id_for_dataset db d = .error e) :
    trigger_reward_on_access db d (some o) (some role) (some g) purpose today now = .error e := by
  rcases hmode with hm | hm <;>
    simp [trigger_reward_on_access, ho, hrole, hm, hcred, howner, Bind.bind, Except.bind]

/-- C3: the reward ledger keeps at most one reward row per (dataset, org,
calendar day): a repeat download by the same org on the same day is a silent
no-op inserting nothing, a download on a day with no credit yet inserts one
row of amount 1 dated that day, and the per-day key uniqueness invariant is
preserved by every successful trigger. -/
theorem reward_daily_dedup (db : DB) (d o : Nat) (role : String) (g : Grant)
    (purpose : Option String) (today now : Nat)
    (ho : o ≠ 0) (hrole : pylower role = "org")
    (hmode : g.mode = "trusted" ∨ g.mode = "public") :
    (has_credit_today db today d o = true →
        trigger_reward_on_access db d (some o) (some role) (some g) purpose today now = .ok db) ∧
    (∀ w, has_credit_today db today d o = false → owner_id_for_dataset db d = .ok w →
        trigger_reward_on_access db d (some o) (some role) (some g) purpose today now =
          .ok (addLog { db with rewards := db.rewards ++
                [⟨d, o, w, 1, "credit", "org_access:" ++ g.mode,
                  [("purpose", some (orElseStr purpose "download")), ("mode", some g.mode)], today⟩] }
              (rewardLogEntry d w o 1 "credit" ("org_access:" ++ g.mode)
                [("purpose", some (orElseStr purpose "download")), ("mode", some g.mode)] now))) ∧
    (rewardKeyUnique db.rewards →
        ∀ db', trigger_reward_on_access db d (some o) (some role) (some g) purpose today now = .ok db' →
          rewardKeyUnique db'.rewards) := by
  refine ⟨?_, ?_, ?_⟩
  · intro hcred
    exact trigger_noop db d o role g purpose today now ho hrole hmode hcred
  · intro w hcred howner
    exact trigger_insert db d o w role g purpose today now ho hrole hmode hcred howner
  · intro hu db' heq
    cases hcred : has_credit_today db today d o with
    | true =>
        rw [trigger_noop db d o role g purpose today now ho hrole hmode hcred] at heq
        obtain rfl := Except.ok.inj heq
        exact hu
    | false =>
        cases howner : owner_id_for_dataset db d with
        | error e =>
            rw [trigger_owner_error db d o role g purpose today now e ho hrole hmode hcred howner] at heq
            cases heq
        | ok w =>
            rw [trigger_insert db d o w role g purpose today now ho hrole hmode hcred howner] at heq
            obtain rfl := Except.ok.inj heq
            have hnone : ∀ x ∈ db.rewards, ¬(x.dataset_id = d ∧ x.org_id = o ∧ x.day = today) := by
              intro x hx hc
              have hT : has_credit_today db today d o = true := by
                unfold has_credit_today
                rw [List.any_eq_true]
                exact ⟨x, hx, by simp [hc.1, hc.2.1, hc.2.2]⟩
              rw [hT] at hcred
              cases hcred
            unfold rewardKeyUnique at hu ⊢
            show List.Pairwise _ (db.rewards ++ [_])
            rw [List.pairwise_append]
            refine ⟨hu, by simp, ?_⟩
            intro x hx y hy
            have hy' : y = ⟨d, o, w, 1, "credit", "org_access:" ++ g.mode,
                [("purpose", some (orElseStr purpose "download")), ("mode", some g.mode)], today⟩ := by
              simpa using hy
            subst hy'
            intro hc
            exact hnone x hx hc

/-- Store for the C3 witness: dataset 1 owned by 9; one reward for org 2 on
day 4. -/
def rewDB : DB :=
  ⟨[], [⟨1, 9, "d", "", "text/plain", [], "Trusted", 1, 0, none⟩], [], [],
   [⟨1, 2, 9, 1, "credit", "org_access:trusted", [], 4⟩], 2⟩

theorem reward_daily_dedup_witness :
    (trigger_reward_on_access rewDB 1 (some 2) (some "org")
        (some ⟨"trusted", some "agg", none⟩) none 4 40 = .ok rewDB) ∧
    (trigger_reward_on_access rewDB 1 (some 2) (some "org")
        (some ⟨"trusted", some "agg", none⟩) none 5 50 =
      .ok (addLog { rewDB with rewards := rewDB.rewards ++
            [⟨1, 2, 9, 1, "credit", "org_access:trusted",
              [("purpose", some "download"), ("mode", some "trusted")], 5⟩] }
          (rewardLogEntry 1 9 2 1 "credit" "org_access:trusted"
            [("purpose", some "download"), ("mode", some "trusted")] 50))) := by
  have h := reward_daily_dedup rewDB 1 2 "org" ⟨"trusted", some "agg", none⟩ none 4 40
    (by decide) (by decide) (Or.inl rfl)
  have h5 := reward_daily_dedup rewDB 1 2 "org" ⟨"trusted", some "agg", none⟩ none 5 50
    (by decide) (by decide) (Or.inl rfl)
  exact ⟨h.1 (by decide), h5.2.1 9 (by decide) rfl⟩

/-! ### Visibility mutation -/

/-- C7: `change_visibility` returns false when the dataset is missing or the
caller is not the owner, true with no write at all when the visibility is
unchanged, and on an actual change rewrites the dataset row in place and
appends exactly one `permissions_update` audit row recording old and new. -/
theorem change_visibility_spec (db : DB) (w i : Nat) (v : String) (now : Nat)
    (hv : ALLOWED_VIS.contains v = true) (hnorm : pytitle (pystrip v) = v) :
    (fetch_dataset db i = none → change_visibility db w i v now = .ok (false, db)) ∧
    (∀ ds, fetch_dataset db i = some ds → ds.owner_id ≠ w →
        change_visibility db w i v now = .ok (false, db)) ∧
    (∀ ds, fetch_dataset db i = some ds → ds.owner_id = w → ds.visibility = v →
        change_visibility db w i v now = .ok (true, db)) ∧
    (∀ ds, fetch_dataset db i = some ds → ds.owner_id = w → ds.visibility ≠ v →
        change_visibility db w i v now =
          .ok (true, addLog
            { db with datasets := db.datasets.map (fun d0 =>
                if d0.id == i then { d0 with visibility := v, updated_at := some now } else d0) }
            ⟨i, w, "user", "permissions_update",
             [("op", some "set_visibility"), ("old", some ds.visibility),
              ("new", some v)], now⟩)) := by
  have hvm : v ∈ ALLOWED_VIS := by
    have := hv
    unfold ALLOWED_VIS at this ⊢
    exact List.elem_iff.mp this
  have m1 : ("permissions_update" : String) ∈ ALLOWED_ACTIONS := by decide
  have m2 : ("user" : String) ∈ ALLOWED_ROLES := by decide
  have hs1 : pystrip "permissions_update" = "permissions_update" := by decide
  have hs2 : pystrip "user" = "user" := by decide
  refine ⟨?_, ?_, ?_, ?_⟩
  · intro hds
    simp [change_visibility, hnorm, hvm, hds]
  · intro ds hds hown
    simp [change_visibility, hnorm, hvm, hds, hown]
  · intro ds hds hown hsame
    simp [change_visibility, hnorm, hvm, hds, hown, hsame]
  · intro ds hds hown hdiff
    simp [change_visibility, log_event, hnorm, hvm, hds, hown, hdiff, m1, m2,
      hs1, hs2, Bind.bind, Except.bind, addLog, Pure.pure, Except.pure]

/-- Store for the C7 witness: dataset 1 owned by 10, currently Private. -/
def visDB : DB :=
  ⟨[], [⟨1, 10, "d", "", "text/plain", [], "Private", 1, 0, none⟩], [], [], [], 2⟩

theorem change_visibility_spec_witness :
    change_visibility visDB 10 1 "Public" 5 =
      .ok (true, addLog
        { visDB with datasets := visDB.datasets.map (fun d0 =>
            if d0.id == 1 then { d0 with visibility := "Public", updated_at := some 5 } else d0) }
        ⟨1, 10, "user", "permissions_update",
         [("op", some "set_visibility"), ("old", some "Private"),
          ("new", some "Public")], 5⟩) ∧
    change_visibility visDB 11 1 "Public" 5 = .ok (false, visDB) ∧
    change_visibility visDB 10 1 "Private" 5 = .ok (true, visDB) := by
  have h := change_visibility_spec visDB 10 1 "Public" 5 (by decide) (by decide)
  have h2 := change_visibility_spec visDB 11 1 "Public" 5 (by decide) (by decide)
  have h3 := change_visibility_spec visDB 10 1 "Private" 5 (by decide) (by decide)
  exact ⟨h.2.2.2 ⟨1, 10, "d", "", "text/plain", [], "Private", 1, 0, none⟩ rfl rfl (by decide),
         h2.2.1 ⟨1, 10, "d", "", "text/plain", [], "Private", 1, 0, none⟩ rfl (by decide),
         h3.2.2.1 ⟨1, 10, "d", "", "text/plain", [], "Private", 1, 0, none⟩ rfl rfl rfl⟩

/-! ### Versioning -/

theorem next_version_eq (ds : List Dataset) (w : Nat) (nm : String) :
    next_version ds w nm = maxVersionFor ds w nm + 1 := rfl

/-- C9: `save_dataset` assigns version max+1 for its (owner, name) — strictly
above every existing version, and exactly 1 when no version exists — and
every row returned by `list_my_latest` carries the maximum version for its
(owner, name). -/
theorem dataset_versioning_spec (db : DB) (o lim : Nat) (nm : String)
    (mime desc : Option String) (raw : List Nat) (vis : String) (now : Nat)
    (hname : nm ≠ "")
    (hvis : ALLOWED_VIS.contains (pytitle (pystrip (if vis = "" then "Private" else vis))) = true) :
    ((save_dataset db o nm mime raw desc vis now).map (fun t => t.2.1) =
        .ok (maxVersionFor db.datasets o nm + 1)) ∧
    (∀ d ∈ db.datasets, d.owner_id = o → d.name = nm →
        d.version < maxVersionFor db.datasets o nm + 1) ∧
    ((∀ d ∈ db.datasets, ¬(d.owner_id = o ∧ d.name = nm)) →
        maxVersionFor db.datasets o nm + 1 = 1) ∧
    (∀ d ∈ list_my_latest db o lim, d.owner_id = o ∧
        d.version = maxVersionFor db.datasets o d.name ∧
        ∀ d2 ∈ db.datasets, d2.owner_id = o → d2.name = d.name →
          d2.version ≤ d.version) := by
  have m1 : ("upload" : String) ∈ ALLOWED_ACTIONS := by decide
  have m2 : ("user" : String) ∈ ALLOWED_ROLES := by decide
  have hs1 : pystrip "upload" = "upload" := by decide
  have hs2 : pystrip "user" = "user" := by decide
  have hvm : pytitle (pystrip (if vis = "" then "Private" else vis)) ∈ ALLOWED_VIS := by
    have := hvis
    unfold ALLOWED_VIS at this ⊢
    exact List.elem_iff.mp this
  refine ⟨?_, ?_, ?_, ?_⟩
  · simp [save_dataset, log_event, hname, hvm, m1, m2, hs1, hs2,
      Bind.bind, Except.bind, next_version_eq, Pure.pure, Except.pure, Except.map]
  · intro d hd hdo hdn
    have hmem : d ∈ db.datasets.filter (fun d0 => d0.owner_id == o && d0.name == nm) := by
      rw [List.mem_filter]
      exact ⟨hd, by simp [hdo, hdn]⟩
    exact Nat.lt_succ_of_le (le_foldl_max 0 hmem)
  · intro hfree
    have hfil : db.datasets.filter (fun d0 => d0.owner_id == o && d0.name == nm) = [] := by
      rw [List.filter_eq_nil_iff]
      intro d hd
      have := hfree d hd
      simp only [Bool.and_eq_true, beq_iff_eq]
      intro hc
      exact this hc
    unfold maxVersionFor
    rw [hfil]
    rfl
  · intro d hd
    have hd1 : d ∈ sortDs (db.datasets.filter (fun d0 =>
        d0.owner_id == o && d0.version == maxVersionFor db.datasets d0.owner_id d0.name)) :=
      List.take_subset _ _ hd
    rw [mem_sortDs, List.mem_filter] at hd1
    obtain ⟨hmem, hcond⟩ := hd1
    have hc : d.owner_id = o ∧ d.version = maxVersionFor db.datasets d.owner_id d.name := by
      simpa [Bool.and_eq_true, beq_iff_eq] using hcond
    refine ⟨hc.1, by rw [hc.2, hc.1], ?_⟩
    intro d2 hd2 hd2o hd2n
    have hmem2 : d2 ∈ db.datasets.filter
        (fun d0 => d0.owner_id == d.owner_id && d0.name == d.name) := by
      rw [List.mem_filter]
      exact ⟨hd2, by simp [hd2o, hc.1, hd2n]⟩
    have := le_foldl_max 0 hmem2
    rw [hc.2, hc.1]
    unfold maxVersionFor
    rw [← hc.1]
    exact this

/-- Store for the C9 witness: three versions of a.csv for owner 7. -/
def verDB : DB :=
  ⟨[], [⟨1, 7, "a.csv", "", "text/csv", [], "Private", 1, 0, none⟩,
        ⟨2, 7, "a.csv", "", "text/csv", [], "Private", 2, 1, none⟩,
        ⟨3, 7, "a.csv", "", "text/csv", [], "Private", 3, 2, none⟩], [], [], [], 4⟩

theorem dataset_versioning_spec_witness :
    ((save_dataset verDB 7 "a.csv" none [] none "Private" 3).map (fun t => t.2.1) =
        .ok (maxVersionFor verDB.datasets 7 "a.csv" + 1)) ∧
    maxVersionFor verDB.datasets 7 "a.csv" + 1 = 4 ∧
    (list_my_latest verDB 7 25).map Dataset.version = [3] := by
  have h := dataset_versioning_spec verDB 7 25 "a.csv" none none [] "Private" 3
    (by decide) (by decide)
  exact ⟨h.1, by decide, by decide⟩

end PDS
